import Mathlib

/-!
Verification development for the hn-client Go library (package `hn`).

The definitions below are a shallow embedding of `client.go`, the sort
utilities and the item-conversion utilities.  Go machine integers are
modelled as `Nat` (Go `uint`) and `Int` (Go `int`/`int64`); fallible Go
functions returning `(T, error)` become `Except`-valued Lean functions;
the concurrent fan-out of `ItemService.List` is modelled by its
deterministic data flow (tasks processed in input order) plus a separate
admission transition system for the errgroup worker cap.
-/

namespace HN

/-- Errors produced by `Fetch` in `client.go`: `ErrNotFound` when the
response body is the literal "null" (line 586-588), and wrapped
transport / decode / request-creation / cancellation errors otherwise. -/
inductive HNError where
  | notFound
  | transport (msg : String)
  | decode (msg : String)
  | canceled
deriving DecidableEq, Repr

/-- Go `time.Time`, reduced to the fields relevant here: wall-clock
seconds since January 1, year 1 (the internal epoch), and nanoseconds.
The zero value (`sec = 0`, `nsec = 0`) is Go's "unset" time. -/
structure GoTime where
  sec : Int
  nsec : Int
deriving DecidableEq, Repr, Inhabited

/-- Offset between Go's internal epoch (year 1) and the Unix epoch
(1970-01-01), in seconds: 62135596800. -/
def unixToInternal : Int := 62135596800

/-- Go `time.Unix(sec, 0)`: the instant `sec` seconds after the Unix
epoch, with zero nanoseconds. -/
def timeUnix (sec : Int) : GoTime := ⟨unixToInternal + sec, 0⟩

/-- Go `time.Time.IsZero`: reports whether the time is the zero value. -/
def GoTime.isZero (t : GoTime) : Bool := t.sec == 0 && t.nsec == 0

/-- Go `time.Time.UnixNano`: nanoseconds elapsed since the Unix epoch. -/
def GoTime.unixNano (t : GoTime) : Int := (t.sec - unixToInternal) * 1000000000 + t.nsec

/-- `Timestamp` from `client.go` (line 209-211): wraps `time.Time`. -/
structure Timestamp where
  Time : GoTime
deriving DecidableEq, Repr, Inhabited

/-- The zero value of `Timestamp`: an embedded zero `time.Time`. -/
def Timestamp.zeroValue : Timestamp := ⟨⟨0, 0⟩⟩

/-- `Timestamp.UnmarshalJSON` (client.go lines 213-224) after
`json.Unmarshal` has successfully produced the `int64` `timestamp`:
the receiver's time is set to `time.Unix(timestamp, 0)`. -/
def unmarshalTimestamp (timestamp : Int) : Timestamp := ⟨timeUnix timestamp⟩

/-- The item type-tag constants from `client.go` (lines 23-28). -/
def StoryType : String := "story"

def CommentType : String := "comment"

def AskType : String := "ask"

def JobType : String := "job"

def PollType : String := "poll"

def PollOptionType : String := "pollopt"

/-- `baseItem` (client.go lines 76-82): fields common to all items.
Go's field `Type` is rendered `Type_` because `Type` is reserved in Lean. -/
structure baseItem where
  ID : Nat
  By : String
  Score : Int
  Time : Timestamp
  Type_ : String
deriving DecidableEq, Repr, Inhabited

/-- `Item` (client.go lines 107-118): the superset record embedding
`baseItem` plus every variant-specific field. -/
structure Item extends baseItem where
  Descendants : Int
  Parts : List Nat
  Parent : Nat
  Kids : List Nat
  Text : String
  Title : String
  Poll : Nat
  URL : String
deriving DecidableEq, Repr, Inhabited

/-! ## The multi-item retrieval pipeline (`ItemService.List`, client.go 250-314)

A retrieval is parametrised by the per-ID fetcher (the data-flow content
of `ItemService.Get`: fetch the item or fail).  The concurrent pipeline is
embedded by its deterministic data flow: each ID spawns a task
(client.go 282-297) that fetches the item and, when the filter admits it,
sends it to the collector goroutine (265-280) which stores it in
`itemsMap` keyed by the item's own decoded `ID` field; tasks are
processed in input order here, which fixes one interleaving of the
nondeterministic completion order.  On the first task error, `g.Wait`
returns that error and `List` returns `(nil, err)` (299-301); otherwise
the result is compacted from the map in input-ID order (307-311). -/

/-- Whether a fetched item is sent to the collector, from the literal
conditional at client.go 289-293:
`if filter != nil && filter(item) { send } else if filter == nil { send }`.
A `nil` Go filter is `none`. -/
def sendsItem (filter : Option (Item → Bool)) (item : Item) : Bool :=
  match filter with
  | some f => f item
  | none => true

/-- Map update `itemsMap[item.ID] = item` (client.go 272), on the map
modelled as a function `Nat → Option Item`. -/
def mapStore (m : Nat → Option Item) (k : Nat) (v : Item) : Nat → Option Item :=
  fun x => if x = k then some v else m x

/-- The fan-out tasks of client.go 282-297, run in input order: each ID
is fetched; the first fetch error aborts the whole run with that error
(the task returns `err` to the errgroup, 284-287); a fetched item is
stored into the map under its decoded `ID` when the filter admits it. -/
def runTasks (fetch : Nat → Except HNError Item) (filter : Option (Item → Bool)) :
    List Nat → (Nat → Option Item) → Except HNError (Nat → Option Item)
  | [], m => .ok m
  | id :: rest, m =>
    match fetch id with
    | .error e => .error e
    | .ok item =>
      runTasks fetch filter rest
        (if sendsItem filter item then mapStore m item.ID item else m)

/-- `ItemService.List` (client.go 250-314).  Empty input returns an empty
list with no error (251-253); otherwise the tasks run, a task error is
returned with a nil result (299-301), and on success the surviving items
are re-emitted in input-ID order by probing the map at each requested ID
(307-311). -/
def listItems (fetch : Nat → Except HNError Item) (ids : List Nat)
    (filter : Option (Item → Bool)) : Except HNError (List Item) :=
  if ids.isEmpty then .ok []
  else
    match runTasks fetch filter ids (fun _ => none) with
    | .error e => .error e
    | .ok m => .ok (ids.filterMap m)

/-- The item a fetcher yields for `id`, when it succeeds. -/
def fetchedItem (fetch : Nat → Except HNError Item) (id : Nat) : Item :=
  match fetch id with
  | .ok item => item
  | .error _ => default

/-- The first fetch error in task order, if any. -/
def firstError (fetch : Nat → Except HNError Item) (ids : List Nat) : Option HNError :=
  ids.findSome? fun id =>
    match fetch id with
    | .error e => some e
    | .ok _ => none

/-! ### Characterisation lemmas for the pipeline -/

/-- When every ID in the list fetches successfully and each fetched item
carries the ID it was requested under, the task loop succeeds and the
final map holds, at each requested-and-admitted ID, that ID's item. -/
theorem runTasks_all_ok (fetch : Nat → Except HNError Item)
    (filter : Option (Item → Bool)) (ids : List Nat) (m0 : Nat → Option Item)
    (hok : ∀ id ∈ ids, ∃ it, fetch id = .ok it ∧ it.ID = id) :
    runTasks fetch filter ids m0 =
      .ok (fun x =>
        if ids.contains x && sendsItem filter (fetchedItem fetch x) then
          some (fetchedItem fetch x)
        else m0 x) := by
  induction ids generalizing m0 with
  | nil =>
    simp only [runTasks]
    congr 1
  | cons id rest ih =>
    obtain ⟨it, hfe, hid⟩ := hok id (List.mem_cons_self id rest)
    have hitem : fetchedItem fetch id = it := by
      simp [fetchedItem, hfe]
    simp only [runTasks, hfe]
    rw [ih _ (fun i hi => hok i (List.mem_cons_of_mem id hi))]
    congr 1
    funext x
    by_cases hx : x = id
    · subst hx
      cases hsend : sendsItem filter it with
      | true =>
        have hms : mapStore m0 it.ID it x = some it := by
          simp [mapStore, hid]
        simp [hitem, hsend, hms]
      | false =>
        simp [hitem, hsend]
    · have hms : (if sendsItem filter it then mapStore m0 it.ID it else m0) x = m0 x := by
        cases hsend : sendsItem filter it
        · rfl
        · simp [mapStore, hid, hx]
      simp [List.contains_cons, hx, hms]

/-- If some ID in the list fails to fetch, the task loop aborts with the
first fetch error in task order, whatever the map state. -/
theorem runTasks_error (fetch : Nat → Except HNError Item)
    (filter : Option (Item → Bool)) (ids : List Nat)
    (h : ∃ id ∈ ids, ∃ e, fetch id = .error e) (m0 : Nat → Option Item) :
    ∃ e, firstError fetch ids = some e ∧ runTasks fetch filter ids m0 = .error e := by
  induction ids generalizing m0 with
  | nil => simp at h
  | cons id rest ih =>
    cases hfe : fetch id with
    | error e =>
      exact ⟨e, by simp [firstError, List.findSome?_cons, hfe], by simp [runTasks, hfe]⟩
    | ok it =>
      have hrest : ∃ i ∈ rest, ∃ e, fetch i = .error e := by
        obtain ⟨i, hi, e, he⟩ := h
        rcases List.mem_cons.mp hi with rfl | hi2
        · rw [hfe] at he; exact absurd he (by simp)
        · exact ⟨i, hi2, e, he⟩
      obtain ⟨e, h1, h2⟩ :=
        ih hrest (if sendsItem filter it then mapStore m0 it.ID it else m0)
      refine ⟨e, ?_, ?_⟩
      · simpa [firstError, List.findSome?_cons, hfe] using h1
      · simp [runTasks, hfe, h2]

/-- When every ID fetches successfully under its own ID, `List` succeeds
and returns, in input-ID order, exactly the fetched items the filter
admits. -/
theorem listItems_all_ok (fetch : Nat → Except HNError Item) (ids : List Nat)
    (filter : Option (Item → Bool))
    (hok : ∀ id ∈ ids, ∃ it, fetch id = .ok it ∧ it.ID = id) :
    listItems fetch ids filter =
      .ok (ids.filterMap fun id =>
        if sendsItem filter (fetchedItem fetch id) then some (fetchedItem fetch id)
        else none) := by
  cases hids : ids with
  | nil => simp [listItems]
  | cons id0 rest =>
    rw [← hids]
    have hne : ids.isEmpty = false := by simp [hids]
    rw [listItems, hne]
    simp only [Bool.false_eq_true, if_false]
    rw [runTasks_all_ok fetch filter ids _ hok]
    simp only
    congr 1
    apply List.filterMap_congr
    intro x hx
    have hc : ids.contains x = true := List.elem_eq_true_of_mem hx
    rw [hc, Bool.true_and]

/-- A concrete well-formed item used in witnesses and counterexamples. -/
def sampleItem (id : Nat) : Item :=
  { ID := id, By := "", Score := 0, Time := Timestamp.zeroValue, Type_ := StoryType,
    Descendants := 0, Parts := [], Parent := 0, Kids := [], Text := "", Title := "",
    Poll := 0, URL := "" }

/-- A fetcher for which every ID succeeds with its own item. -/
def fetchAllOK : Nat → Except HNError Item := fun id => .ok (sampleItem id)

/-- C1: for every non-empty ID sequence, when no filter is supplied and
every per-ID fetch succeeds (yielding the record decoded under that ID),
`ItemService.List` returns exactly one record per input ID, in the input
order, with no error. -/
theorem C1_list_one_record_per_id_in_order (fetch : Nat → Except HNError Item)
    (ids : List Nat) (hne : ids ≠ [])
    (hok : ∀ id ∈ ids, ∃ it, fetch id = .ok it ∧ it.ID = id) :
    listItems fetch ids none = .ok (ids.map (fetchedItem fetch)) := by
  rw [listItems_all_ok fetch ids none hok]
  congr 1
  have : ∀ x ∈ ids,
      (if sendsItem none (fetchedItem fetch x) then some (fetchedItem fetch x) else none)
        = some (fetchedItem fetch x) := by
    intro x _
    rfl
  rw [List.filterMap_congr this]
  exact congrFun (List.filterMap_eq_map (fetchedItem fetch)) ids

/-- Witness for C1 at `ids = [3, 1, 2]` with the all-successful fetcher. -/
theorem C1_list_one_record_per_id_in_order_witness :
    listItems fetchAllOK [3, 1, 2] none = .ok ([3, 1, 2].map (fetchedItem fetchAllOK)) :=
  C1_list_one_record_per_id_in_order fetchAllOK [3, 1, 2] (by decide)
    (fun id _ => ⟨sampleItem id, rfl, rfl⟩)

/-- The fetcher of the C2 counterexample: ID 2 is upstream not-found,
every other ID succeeds. -/
def fetchNotFound2 : Nat → Except HNError Item := fun id =>
  if id = 2 then .error .notFound else .ok (sampleItem id)

/-- C2 counterexample: with IDs `[1, 2, 3]` where ID 2 fetches as
not-found and the others succeed, `ItemService.List` does NOT absorb the
not-found outcome: it returns the `ErrNotFound` error (the task at
client.go 284-287 returns every `Get` error, including `ErrNotFound`, to
the errgroup) instead of the claimed error-free `[record 1, record 3]`. -/
theorem C2_counterexample_not_found_is_fatal :
    listItems fetchNotFound2 [1, 2, 3] none = .error .notFound := by
  rfl

/-- C2 amended: a not-found fetch outcome is not absorbed; if any ID in
the list fetches as not-found (and hence some fetch errs), `List` returns
the first fetch error in task order — possibly `ErrNotFound` itself —
together with a nil result, and the not-found ID's record is not
delivered. -/
theorem C2_amended_not_found_aborts_list (fetch : Nat → Except HNError Item)
    (ids : List Nat) (filter : Option (Item → Bool))
    (h : ∃ id ∈ ids, fetch id = .error .notFound) :
    ∃ e, firstError fetch ids = some e ∧ listItems fetch ids filter = .error e := by
  have herr : ∃ id ∈ ids, ∃ e, fetch id = .error e := by
    obtain ⟨id, hid, he⟩ := h
    exact ⟨id, hid, .notFound, he⟩
  obtain ⟨e, h1, h2⟩ := runTasks_error fetch filter ids herr (fun _ => none)
  have hne : ids.isEmpty = false := by
    obtain ⟨id, hid, _⟩ := h
    cases ids with
    | nil => cases hid
    | cons a as => rfl
  exact ⟨e, h1, by rw [listItems, hne]; simp only [Bool.false_eq_true, if_false, h2]⟩

/-- Witness for the amended C2 at `ids = [1, 2, 3]` with ID 2 not-found. -/
theorem C2_amended_not_found_aborts_list_witness :
    ∃ e, firstError fetchNotFound2 [1, 2, 3] = some e ∧
      listItems fetchNotFound2 [1, 2, 3] none = .error e :=
  C2_amended_not_found_aborts_list fetchNotFound2 [1, 2, 3] none
    ⟨2, by decide, rfl⟩

/-- C3: if any fetch task fails with a transport, decode or cancellation
error, `ItemService.List` returns the first fetch error observed (in the
embedding's task order) together with a nil result: no partial list of
already-fetched records is ever returned alongside or instead of the
error. -/
theorem C3_first_error_no_partial_result (fetch : Nat → Except HNError Item)
    (ids : List Nat) (filter : Option (Item → Bool))
    (h : ∃ id ∈ ids, ∃ e, fetch id = .error e ∧ e ≠ .notFound) :
    ∃ e, firstError fetch ids = some e ∧ listItems fetch ids filter = .error e := by
  have herr : ∃ id ∈ ids, ∃ e, fetch id = .error e := by
    obtain ⟨id, hid, e, he, _⟩ := h
    exact ⟨id, hid, e, he⟩
  obtain ⟨e, h1, h2⟩ := runTasks_error fetch filter ids herr (fun _ => none)
  have hne : ids.isEmpty = false := by
    obtain ⟨id, hid, _⟩ := herr
    cases ids with
    | nil => cases hid
    | cons a as => rfl
  exact ⟨e, h1, by rw [listItems, hne]; simp only [Bool.false_eq_true, if_false, h2]⟩

/-- The fetcher of the C3 witness: ID 2 fails with a transport error,
every other ID succeeds. -/
def fetchTransport2 : Nat → Except HNError Item := fun id =>
  if id = 2 then .error (.transport "connection refused") else .ok (sampleItem id)

/-- Witness for C3 at `ids = [1, 2, 3]` with a transport failure on ID 2. -/
theorem C3_first_error_no_partial_result_witness :
    ∃ e, firstError fetchTransport2 [1, 2, 3] = some e ∧
      listItems fetchTransport2 [1, 2, 3] none = .error e :=
  C3_first_error_no_partial_result fetchTransport2 [1, 2, 3] none
    ⟨2, by decide, .transport "connection refused", rfl, by decide⟩

/-- C4: for every successfully fetched record, inclusion in the output is
exactly `sendsItem`: the record is included iff either no filter was
supplied or the filter returns true on it (`sendsItem` is the literal
two-branch conditional of client.go 289-293, and its unfolding below shows
there is no third behavioural case); included records appear in input-ID
order. -/
theorem C4_filter_include_iff (fetch : Nat → Except HNError Item) (ids : List Nat)
    (filter : Option (Item → Bool))
    (hok : ∀ id ∈ ids, ∃ it, fetch id = .ok it ∧ it.ID = id) :
    listItems fetch ids filter =
      .ok (ids.filterMap fun id =>
        if sendsItem filter (fetchedItem fetch id) then some (fetchedItem fetch id)
        else none) ∧
    ∀ it : Item, sendsItem filter it = true ↔
      (filter = none ∨ ∃ f, filter = some f ∧ f it = true) := by
  refine ⟨listItems_all_ok fetch ids filter hok, ?_⟩
  intro it
  cases filter with
  | none => simp [sendsItem]
  | some f => simp [sendsItem]

/-- Witness for C4 at `ids = [1, 2, 3]` with the filter accepting only
even item IDs. -/
theorem C4_filter_include_iff_witness :
    listItems fetchAllOK [1, 2, 3] (some fun it => it.ID % 2 == 0) =
      .ok ([1, 2, 3].filterMap fun id =>
        if sendsItem (some fun it => it.ID % 2 == 0) (fetchedItem fetchAllOK id) then
          some (fetchedItem fetchAllOK id)
        else none) ∧
    ∀ it : Item, sendsItem (some fun it => it.ID % 2 == 0) it = true ↔
      ((some fun it : Item => it.ID % 2 == 0) = none ∨
        ∃ f, (some fun it : Item => it.ID % 2 == 0) = some f ∧ f it = true) :=
  C4_filter_include_iff fetchAllOK [1, 2, 3] (some fun it => it.ID % 2 == 0)
    (fun id _ => ⟨sampleItem id, rfl, rfl⟩)

/-- When every fetch succeeds, the task loop succeeds, and the final map
only ever stores an item under that item's own decoded `ID` (the
collector executes `itemsMap[item.ID] = item`, client.go 272). -/
theorem runTasks_ok_keyed_by_id (fetch : Nat → Except HNError Item)
    (filter : Option (Item → Bool)) (ids : List Nat) (m0 : Nat → Option Item)
    (hok : ∀ id ∈ ids, ∃ it, fetch id = .ok it)
    (hm0 : ∀ x it, m0 x = some it → it.ID = x) :
    ∃ m, runTasks fetch filter ids m0 = .ok m ∧
      ∀ x it, m x = some it → it.ID = x := by
  induction ids generalizing m0 with
  | nil => exact ⟨m0, rfl, hm0⟩
  | cons id rest ih =>
    obtain ⟨it, hfe⟩ := hok id (List.mem_cons_self id rest)
    have hm1 : ∀ x it2,
        (if sendsItem filter it then mapStore m0 it.ID it else m0) x = some it2 →
          it2.ID = x := by
      intro x it2 hx
      cases hsend : sendsItem filter it with
      | true =>
        rw [hsend] at hx
        simp only [if_pos, mapStore] at hx
        by_cases hxi : x = it.ID
        · rw [if_pos hxi] at hx
          cases hx
          exact hxi.symm
        · rw [if_neg hxi] at hx
          exact hm0 x it2 hx
      | false =>
        rw [hsend] at hx
        simp only [Bool.false_eq_true, if_false] at hx
        exact hm0 x it2 hx
    obtain ⟨m, h1, h2⟩ :=
      ih _ (fun i hi => hok i (List.mem_cons_of_mem id hi)) hm1
    exact ⟨m, by simp [runTasks, hfe, h1], h2⟩

/-- The fetcher of the C10 counterexample: the fetch for ID 1 decodes to
a record whose `id` field is 5, the fetch for ID 2 decodes to a record
whose `id` field is 1; all other IDs fail. -/
def fetchCrossID : Nat → Except HNError Item := fun id =>
  if id = 1 then .ok (sampleItem 5)
  else if id = 2 then .ok (sampleItem 1)
  else .error .notFound

/-- C10 counterexample: requesting `[1, 2]` from `fetchCrossID`, the
record fetched for ID 2 decodes with `id` field 1 — different from the
ID used to request it — yet it is NOT omitted: it appears in the output
(under requested ID 1, because the map is keyed by the decoded `id`).
The claim's assertion that such a record is silently omitted fails. -/
theorem C10_counterexample_cross_id_record_survives :
    fetchCrossID 2 = .ok (sampleItem 1) ∧ (sampleItem 1).ID ≠ 2 ∧
      listItems fetchCrossID [1, 2] none = .ok [sampleItem 1] := by
  refine ⟨rfl, by decide, ?_⟩
  rfl

/-- C10 amended: a successfully fetched, filter-accepted record enters
the output only under its own decoded `id` field matched against the
requested IDs: every output record's decoded `id` is among the requested
IDs, and a record whose decoded `id` matches none of the requested IDs
(for example a body that omits `id`, decoding it to zero) is silently
omitted with no error reported.  (A record whose decoded `id` differs
from its own requested ID may however still appear when that decoded
`id` coincides with another requested ID.) -/
theorem C10_amended_output_keyed_by_decoded_id (fetch : Nat → Except HNError Item)
    (ids : List Nat) (filter : Option (Item → Bool))
    (hok : ∀ id ∈ ids, ∃ it, fetch id = .ok it) :
    ∃ out, listItems fetch ids filter = .ok out ∧
      (∀ o ∈ out, o.ID ∈ ids) ∧
      ∀ id ∈ ids, ∀ it, fetch id = .ok it → it.ID ∉ ids → it ∉ out := by
  cases hids : ids with
  | nil => exact ⟨[], by simp [listItems], by simp, by simp⟩
  | cons id0 rest =>
    rw [← hids]
    obtain ⟨m, h1, h2⟩ :=
      runTasks_ok_keyed_by_id fetch filter ids (fun _ => none) hok (by simp)
    have hne : ids.isEmpty = false := by simp [hids]
    have hmem : ∀ o ∈ ids.filterMap m, o.ID ∈ ids := by
      intro o ho
      obtain ⟨i, hi, hmi⟩ := List.mem_filterMap.mp ho
      rw [h2 i o hmi]
      exact hi
    refine ⟨ids.filterMap m, ?_, hmem, ?_⟩
    · rw [listItems, hne]
      simp only [Bool.false_eq_true, if_false, h1]
    · intro id hid it hfe hnot hmem2
      exact hnot (hmem it hmem2)

/-- Witness for the amended C10: with `fetchCrossID` on `ids = [1, 2]`
all fetches succeed and the conclusion holds. -/
theorem C10_amended_output_keyed_by_decoded_id_witness :
    ∃ out, listItems fetchCrossID [1, 2] none = .ok out ∧
      (∀ o ∈ out, o.ID ∈ [1, 2]) ∧
      ∀ id ∈ [1, 2], ∀ it, fetchCrossID id = .ok it → it.ID ∉ [1, 2] → it ∉ out :=
  C10_amended_output_keyed_by_decoded_id fetchCrossID [1, 2] none
    (by
      intro id hid
      rcases List.mem_cons.mp hid with rfl | hid2
      · exact ⟨sampleItem 5, rfl⟩
      rcases List.mem_cons.mp hid2 with rfl | hid3
      · exact ⟨sampleItem 1, rfl⟩
      cases hid3)

/-! ## Timestamp decoding (C5) -/

/-- C5 counterexample: decoding the JSON integer `0` sets the time to
`time.Unix(0, 0)` — exactly the instant at epoch zero (and not Go's zero
`time.Time`, for which `IsZero` reports true).  The decoded state is the
epoch-zero instant itself, hence not distinguishable from it, contrary to
the claim. -/
theorem C5_counterexample_zero_decodes_to_epoch_instant :
    unmarshalTimestamp 0 = ⟨timeUnix 0⟩ ∧
      (unmarshalTimestamp 0).Time.isZero = false ∧
      unmarshalTimestamp 0 ≠ Timestamp.zeroValue := by
  refine ⟨rfl, by decide, by decide⟩

/-- C5 amended: `Timestamp.UnmarshalJSON` decodes every integer `n` to
`time.Unix(n, 0)`; the input `0` therefore decodes to the epoch-zero
instant, which is NOT an "unset" state.  Only an absent field — for
which the decoder is never invoked — leaves the zero-value `Timestamp`,
and that zero value is distinguishable from the epoch-zero instant. -/
theorem C5_amended_zero_is_epoch_not_unset :
    (∀ n : Int, unmarshalTimestamp n = ⟨timeUnix n⟩) ∧
      (unmarshalTimestamp 0).Time = timeUnix 0 ∧
      Timestamp.zeroValue.Time ≠ timeUnix 0 ∧
      Timestamp.zeroValue.Time.isZero = true := by
  exact ⟨fun n => rfl, rfl, by decide, by decide⟩

/-! ## The worker cap (C6, C9)

`ItemService.List` calls `g.SetLimit(maxWorkers)` (client.go 263) on the
`golang.org/x/sync/errgroup` group.  In the errgroup implementation,
`SetLimit(n)` with negative `n` removes the admission semaphore (no
limit), and otherwise installs a semaphore channel of capacity `n`;
`Group.Go` acquires a semaphore slot before starting the task and the
slot is released when the task completes.  With capacity 0 no slot can
ever be acquired, so `Go` blocks forever. -/

/-- `errgroup.SetLimit`: the capacity of the admission semaphore, or
`none` when `n` is negative (no limit). -/
def setLimitCapacity (n : Int) : Option Nat :=
  if n < 0 then none else some n.toNat

/-- Whether a new fetch task may start when `inFlight` tasks currently
hold semaphore slots: always, when there is no limit; otherwise only
while the in-flight count is below the capacity. -/
def canStartTask (limit : Int) (inFlight : Nat) : Bool :=
  match setLimitCapacity limit with
  | none => true
  | some cap => decide (inFlight < cap)

/-- A state of the fan-out loop: how many IDs have not yet been handed to
`g.Go`, and how many fetch tasks are currently in flight. -/
structure PoolState where
  pending : Nat
  inFlight : Nat
deriving DecidableEq, Repr

/-- One scheduling step of the errgroup pool: `start` hands the next
pending ID to a task once a semaphore slot is available, `finish`
completes a running task, releasing its slot. -/
inductive PoolStep (limit : Int) : PoolState → PoolState → Prop where
  | start (p f : Nat) (h : canStartTask limit f = true) :
      PoolStep limit ⟨p + 1, f⟩ ⟨p, f + 1⟩
  | finish (p f : Nat) : PoolStep limit ⟨p, f + 1⟩ ⟨p, f⟩

/-- The pool states reachable from the start of a retrieval of `n` IDs:
no task is in flight initially, and states evolve by `PoolStep`. -/
inductive PoolReachable (limit : Int) (n : Nat) : PoolState → Prop where
  | init : PoolReachable limit n ⟨n, 0⟩
  | step {s t : PoolState} :
      PoolReachable limit n s → PoolStep limit s t → PoolReachable limit n t

/-- C6 counterexample: the claim covers every `W ≤ 0`, but with `W = 0`
(`SetLimit(0)` installs a zero-capacity semaphore) not even a single
task can be admitted — `canStartTask 0 0 = false` — so the retrieval of
any non-empty ID list blocks forever instead of behaving as unbounded. -/
theorem C6_counterexample_zero_workers_blocks :
    (0 : Int) ≤ 0 ∧ canStartTask 0 0 = false := by
  decide

/-- C6 amended: only a strictly negative configured worker count (such
as the documented default `-1`) makes the concurrency cap unbounded —
`SetLimit` then installs no semaphore and a fetch task may start no
matter how many are already in flight; `W = 0` instead admits no task at
all, blocking the retrieval. -/
theorem C6_amended_negative_cap_unbounded (W : Int) (h : W < 0) :
    ∀ inFlight : Nat, canStartTask W inFlight = true := by
  intro inFlight
  simp [canStartTask, setLimitCapacity, h]

/-- Witness for the amended C6 at the default `W = -1` with 5 tasks
already in flight. -/
theorem C6_amended_negative_cap_unbounded_witness :
    canStartTask (-1) 5 = true :=
  C6_amended_negative_cap_unbounded (-1) (by decide) 5

/-- C9: with a positive configured worker count `W`, every reachable
state of the fan-out pool has at most `W` fetch tasks in flight: the
semaphore admits a task only while the in-flight count is below `W`, so
the cap is never exceeded at any instant. -/
theorem C9_cap_never_exceeded (W : Int) (hW : 0 < W) (n : Nat) (s : PoolState)
    (hreach : PoolReachable W n s) : (s.inFlight : Int) ≤ W := by
  induction hreach with
  | init =>
    simpa using le_of_lt hW
  | step hr hstep ih =>
    cases hstep with
    | start p f h =>
      have hcap : setLimitCapacity W = some W.toNat := by
        simp [setLimitCapacity, not_lt.mpr (le_of_lt hW)]
      rw [canStartTask, hcap] at h
      have hf : f < W.toNat := of_decide_eq_true h
      have : (f : Int) + 1 ≤ (W.toNat : Int) := by exact_mod_cast hf
      simpa using this.trans_eq (by rw [Int.toNat_of_nonneg (le_of_lt hW)])
    | finish p f =>
      have : (f : Int) ≤ (f : Int) + 1 := by omega
      exact this.trans (by simpa using ih)

/-- Witness for C9 at `W = 2`, `n = 10`, in the state reached after one
admission (9 pending, 1 in flight). -/
theorem C9_cap_never_exceeded_witness :
    ((⟨9, 1⟩ : PoolState).inFlight : Int) ≤ 2 :=
  C9_cap_never_exceeded 2 (by decide) 10 ⟨9, 1⟩
    (PoolReachable.step PoolReachable.init (PoolStep.start 9 0 (by decide)))

/-! ## The stable multi-key sorter (sort file, C7)

`Sort` wraps `slices.SortStableFunc(items, sort)` — a stable in-place
sort ordered by the comparison function — modelled functionally by
`mergeSort` on lists with the comparator's non-positive relation.
`SortID`/`SortScore`/`SortTime`/`SortType` dispatch on the `Order` value
(a Go `int` with `Ascending = 0`, `Descending = 1`); `Descending` swaps
the arguments of `cmp.Compare`, and any other order value only prints a
warning, leaving the slice untouched. -/

/-- The `Sortable` interface of the sort file (lines 11-17). -/
class Sortable (S : Type) where
  getID : S → Nat
  getBy : S → String
  getScore : S → Int
  getTime : S → Timestamp
  getType : S → String

instance : Sortable baseItem :=
  ⟨baseItem.ID, baseItem.By, baseItem.Score, baseItem.Time, baseItem.Type_⟩

instance : Sortable Item :=
  ⟨fun i => i.ID, fun i => i.By, fun i => i.Score, fun i => i.Time, fun i => i.Type_⟩

/-- `Order` constants (sort file lines 22-25): a Go `int` with
`Ascending = iota = 0` and `Descending = 1`. -/
def Ascending : Int := 0

/-- The descending order constant. -/
def Descending : Int := 1

/-- Go `cmp.Compare`: `-1` when `x < y`, `0` when `x = y`, `+1`
otherwise. -/
def cmpCompare {α : Type} [LinearOrder α] (x y : α) : Int :=
  if x < y then -1 else if x = y then 0 else 1

/-- `Sort` (sort file lines 27-30): `slices.SortStableFunc` with the
given comparison function, as the stable merge sort ordered by
`sortfn a b ≤ 0`.  (Named `stableSort` because `Sort` is reserved in
Lean.) -/
def stableSort {S : Type} (items : List S) (sortfn : S → S → Int) : List S :=
  items.mergeSort fun a b => decide (sortfn a b ≤ 0)

/-- `SortID` (sort file lines 32-46). -/
def SortID {S : Type} [Sortable S] (items : List S) (order : Int) : List S :=
  if order = Ascending then
    stableSort items fun a b => cmpCompare (Sortable.getID a) (Sortable.getID b)
  else if order = Descending then
    stableSort items fun a b => cmpCompare (Sortable.getID b) (Sortable.getID a)
  else items

/-- `SortScore` (sort file lines 48-62). -/
def SortScore {S : Type} [Sortable S] (items : List S) (order : Int) : List S :=
  if order = Ascending then
    stableSort items fun a b => cmpCompare (Sortable.getScore a) (Sortable.getScore b)
  else if order = Descending then
    stableSort items fun a b => cmpCompare (Sortable.getScore b) (Sortable.getScore a)
  else items

/-- `SortTime` (sort file lines 64-78): compares `getTime().UnixNano()`. -/
def SortTime {S : Type} [Sortable S] (items : List S) (order : Int) : List S :=
  if order = Ascending then
    stableSort items fun a b =>
      cmpCompare (Sortable.getTime a).Time.unixNano (Sortable.getTime b).Time.unixNano
  else if order = Descending then
    stableSort items fun a b =>
      cmpCompare (Sortable.getTime b).Time.unixNano (Sortable.getTime a).Time.unixNano
  else items

/-- `SortType` (sort file lines 80-94). -/
def SortType {S : Type} [Sortable S] (items : List S) (order : Int) : List S :=
  if order = Ascending then
    stableSort items fun a b => cmpCompare (Sortable.getType a) (Sortable.getType b)
  else if order = Descending then
    stableSort items fun a b => cmpCompare (Sortable.getType b) (Sortable.getType a)
  else items

/-- `cmp.Compare` is non-positive exactly on `≤`. -/
theorem cmpCompare_nonpos {α : Type} [LinearOrder α] {u v : α} :
    cmpCompare u v ≤ 0 ↔ u ≤ v := by
  unfold cmpCompare
  split_ifs with h1 h2
  · exact iff_of_true (by norm_num) (le_of_lt h1)
  · exact iff_of_true (le_refl 0) (le_of_eq h2)
  · refine iff_of_false (by norm_num) ?_
    intro hle
    rcases lt_or_eq_of_le hle with h | h
    · exact h1 h
    · exact h2 h

/-- Stability of `stableSort` for any transitive, total comparison: a
pair already in comparator order stays in that relative order. -/
theorem stableSort_pair {S : Type} (cmpf : S → S → Int) (l : List S) (a b : S)
    (htrans : ∀ x y z, cmpf x y ≤ 0 → cmpf y z ≤ 0 → cmpf x z ≤ 0)
    (htotal : ∀ x y, cmpf x y ≤ 0 ∨ cmpf y x ≤ 0)
    (hab : cmpf a b ≤ 0) (hs : List.Sublist [a, b] l) : List.Sublist [a, b] (stableSort l cmpf) := by
  apply List.pair_sublist_mergeSort
  · intro x y z hxy hyz
    simp only [decide_eq_true_eq] at hxy hyz ⊢
    exact htrans x y z hxy hyz
  · intro x y
    rcases htotal x y with h | h <;> simp [h]
  · simp only [decide_eq_true_eq]
    exact hab
  · exact hs

/-- Stability of the key-dispatched sorts, for any order value: under
`Ascending` and `Descending` a key-tied pair keeps its relative order
because ties compare as `0` for both the ascending and the inverted
comparator; any other order value leaves the list unchanged. -/
theorem dispatch_stable {S α : Type} [LinearOrder α] (k : S → α) (ord : Int)
    (l : List S) (a b : S) (hk : k a = k b) (hs : List.Sublist [a, b] l) :
    List.Sublist [a, b]
      (if ord = Ascending then stableSort l fun x y => cmpCompare (k x) (k y)
       else if ord = Descending then stableSort l fun x y => cmpCompare (k y) (k x)
       else l) := by
  split_ifs with h1 h2
  · refine stableSort_pair _ l a b ?_ ?_ ?_ hs
    · intro x y z hxy hyz
      rw [cmpCompare_nonpos] at hxy hyz ⊢
      exact le_trans hxy hyz
    · intro x y
      rw [cmpCompare_nonpos, cmpCompare_nonpos]
      exact le_total (k x) (k y)
    · rw [cmpCompare_nonpos]
      exact le_of_eq hk
  · refine stableSort_pair _ l a b ?_ ?_ ?_ hs
    · intro x y z hxy hyz
      rw [cmpCompare_nonpos] at hxy hyz ⊢
      exact le_trans hyz hxy
    · intro x y
      rw [cmpCompare_nonpos, cmpCompare_nonpos]
      exact le_total (k y) (k x)
    · rw [cmpCompare_nonpos]
      exact le_of_eq hk.symm
  · exact hs

/-- C7: every one of `SortID`, `SortScore`, `SortTime`, `SortType` is
stable in both directions (indeed for every order value): two items
comparing equal under the chosen key retain their original relative
order, and in particular `Descending` — which inverts the comparator
rather than reversing an ascending result — preserves the pre-sort
relative order of equal-key ties. -/
theorem C7_sorts_stable {S : Type} [Sortable S] (ord : Int) (l : List S) (a b : S)
    (hsub : List.Sublist [a, b] l) :
    (Sortable.getID a = Sortable.getID b → List.Sublist [a, b] (SortID l ord)) ∧
    (Sortable.getScore a = Sortable.getScore b → List.Sublist [a, b] (SortScore l ord)) ∧
    ((Sortable.getTime a).Time.unixNano = (Sortable.getTime b).Time.unixNano →
      List.Sublist [a, b] (SortTime l ord)) ∧
    (Sortable.getType a = Sortable.getType b → List.Sublist [a, b] (SortType l ord)) := by
  refine ⟨fun hk => ?_, fun hk => ?_, fun hk => ?_, fun hk => ?_⟩
  · unfold SortID
    exact dispatch_stable (Sortable.getID) ord l a b hk hsub
  · unfold SortScore
    exact dispatch_stable (Sortable.getScore) ord l a b hk hsub
  · unfold SortTime
    exact dispatch_stable (fun s => (Sortable.getTime s).Time.unixNano) ord l a b hk hsub
  · unfold SortType
    exact dispatch_stable (Sortable.getType) ord l a b hk hsub

/-- Tied items for the C7 witness: equal on all four sort keys, distinct
records. -/
def tieA : baseItem := ⟨7, "alice", 5, Timestamp.zeroValue, StoryType⟩

/-- Second tied item. -/
def tieB : baseItem := ⟨7, "bob", 5, Timestamp.zeroValue, StoryType⟩

/-- A third item placed in front of the tied pair. -/
def tieC : baseItem := ⟨3, "carol", 9, Timestamp.zeroValue, StoryType⟩

/-- Witness for C7 at `Descending` on `[tieC, tieA, tieB]`, where `tieA`
and `tieB` tie on every key. -/
theorem C7_sorts_stable_witness :
    (Sortable.getID tieA = Sortable.getID tieB → List.Sublist [tieA, tieB] (SortID [tieC, tieA, tieB] 1)) ∧
    (Sortable.getScore tieA = Sortable.getScore tieB →
      List.Sublist [tieA, tieB] (SortScore [tieC, tieA, tieB] 1)) ∧
    ((Sortable.getTime tieA).Time.unixNano = (Sortable.getTime tieB).Time.unixNano →
      List.Sublist [tieA, tieB] (SortTime [tieC, tieA, tieB] 1)) ∧
    (Sortable.getType tieA = Sortable.getType tieB →
      List.Sublist [tieA, tieB] (SortType [tieC, tieA, tieB] 1)) :=
  C7_sorts_stable 1 [tieC, tieA, tieB] tieA tieB
    (List.Sublist.cons tieC (List.Sublist.refl [tieA, tieB]))

/-! ## Tagged projection (conversion file, C8)

`To[C Convertible](item Item) (C, error)` narrows a generic `Item` to
one concrete variant.  The compile-time target type `C` is modelled by
`VariantKind`; each variant's fixed `Type()` tag by `VariantKind.typeTag`;
the `converters` map literal (conversion file lines 5-24) by a
tag-indexed lookup returning the matching converter. -/

/-- `Story` (client.go lines 120-128). -/
structure Story extends baseItem where
  Descendants : Int
  Kids : List Nat
  Text : String
  Title : String
  URL : String
deriving DecidableEq, Repr

/-- `Comment` (client.go lines 134-140). -/
structure Comment extends baseItem where
  Kids : List Nat
  Parent : Nat
  Text : String
deriving DecidableEq, Repr

/-- `Ask` (client.go lines 146-153). -/
structure Ask extends baseItem where
  Descendants : Int
  Kids : List Nat
  Text : String
  Title : String
deriving DecidableEq, Repr

/-- `Job` (client.go lines 159-165). -/
structure Job extends baseItem where
  Text : String
  Title : String
  URL : String
deriving DecidableEq, Repr

/-- `Poll` (client.go lines 171-179). -/
structure Poll extends baseItem where
  Descendants : Int
  Kids : List Nat
  Parts : List Nat
  Text : String
  Title : String
deriving DecidableEq, Repr

/-- `PollOption` (client.go lines 185-190). -/
structure PollOption extends baseItem where
  Poll : Nat
  Text : String
deriving DecidableEq, Repr

/-- `ToStory` (conversion file lines 78-88). -/
def ToStory (item : Item) : Story :=
  { tobaseItem := item.tobaseItem, Descendants := item.Descendants, Kids := item.Kids,
    Text := item.Text, Title := item.Title, URL := item.URL }

/-- `ToComment` (conversion file lines 68-76). -/
def ToComment (item : Item) : Comment :=
  { tobaseItem := item.tobaseItem, Kids := item.Kids, Parent := item.Parent,
    Text := item.Text }

/-- `ToAsk` (conversion file lines 90-99). -/
def ToAsk (item : Item) : Ask :=
  { tobaseItem := item.tobaseItem, Descendants := item.Descendants, Kids := item.Kids,
    Text := item.Text, Title := item.Title }

/-- `ToJob` (conversion file lines 101-109). -/
def ToJob (item : Item) : Job :=
  { tobaseItem := item.tobaseItem, Text := item.Text, Title := item.Title,
    URL := item.URL }

/-- `ToPoll` (conversion file lines 111-121). -/
def ToPoll (item : Item) : Poll :=
  { tobaseItem := item.tobaseItem, Descendants := item.Descendants, Kids := item.Kids,
    Parts := item.Parts, Text := item.Text, Title := item.Title }

/-- `ToPollOption` (conversion file lines 123-130). -/
def ToPollOption (item : Item) : PollOption :=
  { tobaseItem := item.tobaseItem, Poll := item.Poll, Text := item.Text }

/-- The closed family of `Convertible` target types: Story, Comment,
Ask, Job, Poll, PollOption. -/
inductive VariantKind where
  | story
  | comment
  | ask
  | job
  | poll
  | pollOption
deriving DecidableEq, Repr

/-- The fixed tag each variant's `Type()` method returns
(client.go 130-132, 142-144, 155-157, 167-169, 181-183, 192-194). -/
def VariantKind.typeTag : VariantKind → String
  | .story => StoryType
  | .comment => CommentType
  | .ask => AskType
  | .job => JobType
  | .poll => PollType
  | .pollOption => PollOptionType

/-- A value of one of the six concrete variant types. -/
inductive Variant where
  | story (s : Story)
  | comment (c : Comment)
  | ask (a : Ask)
  | job (j : Job)
  | poll (p : Poll)
  | pollOption (o : PollOption)
deriving DecidableEq, Repr

/-- The `converters` map literal (conversion file lines 5-24): the
converter registered for a type tag, if any. -/
def converters (tag : String) : Option (Item → Variant) :=
  if tag = StoryType then some fun i => .story (ToStory i)
  else if tag = CommentType then some fun i => .comment (ToComment i)
  else if tag = AskType then some fun i => .ask (ToAsk i)
  else if tag = JobType then some fun i => .job (ToJob i)
  else if tag = PollType then some fun i => .poll (ToPoll i)
  else if tag = PollOptionType then some fun i => .pollOption (ToPollOption i)
  else none

/-- The two error shapes `To` can produce (conversion file lines 37, 42). -/
inductive ToError where
  | mismatch (expected got : String)
  | unsupported (got : String)
deriving DecidableEq, Repr

/-- `To` (conversion file lines 35-48): mismatch error when the item's
tag differs from the target's fixed tag; otherwise look up the converter
for the tag, failing with an unsupported-type error when absent, and
apply it. -/
def To (k : VariantKind) (item : Item) : Except ToError Variant :=
  if item.Type_ ≠ k.typeTag then .error (.mismatch k.typeTag item.Type_)
  else
    match converters item.Type_ with
    | none => .error (.unsupported item.Type_)
    | some fn => .ok (fn item)

/-- The conversion `To` performs on a tag match, target by target. -/
def convertItem (k : VariantKind) (item : Item) : Variant :=
  match k with
  | .story => .story (ToStory item)
  | .comment => .comment (ToComment item)
  | .ask => .ask (ToAsk item)
  | .job => .job (ToJob item)
  | .poll => .poll (ToPoll item)
  | .pollOption => .pollOption (ToPollOption item)

/-- An item carrying a tag that matches no known variant. -/
def bananaItem : Item := { sampleItem 1 with Type_ := "banana" }

/-- C8 counterexample: projecting an item whose tag "banana" matches no
known variant onto `Story` yields the type-MISMATCH error, not the
claimed unsupported-tag error — the mismatch check runs first and an
unknown tag never equals the target's fixed tag. -/
theorem C8_counterexample_unknown_tag_is_mismatch :
    To .story bananaItem = .error (.mismatch StoryType "banana") ∧
      To .story bananaItem ≠ .error (.unsupported "banana") := by
  refine ⟨rfl, ?_⟩
  rw [show To .story bananaItem = .error (.mismatch StoryType "banana") from rfl]
  simp

/-- C8 amended: for each of the six variant targets, `To` returns the
type-mismatch error exactly when the item's tag differs from the
target's fixed tag (including tags matching no known variant), and on a
tag match succeeds with the narrowed variant and no error; the
unsupported-tag branch is unreachable for these targets. -/
theorem C8_amended_mismatch_iff_tag_differs (k : VariantKind) (item : Item) :
    To k item =
      if item.Type_ = k.typeTag then .ok (convertItem k item)
      else .error (.mismatch k.typeTag item.Type_) := by
  by_cases h : item.Type_ = k.typeTag
  · rw [if_pos h]
    cases k <;>
      simp [To, h, VariantKind.typeTag, converters, convertItem, StoryType,
        CommentType, AskType, JobType, PollType, PollOptionType]
  · rw [if_neg h]
    simp [To, h]

end HN
